import Mathlib

/-!
Verification of the TowerBotNative scheduler engine.

This file gives a shallow embedding, in Lean 4, of the pure logic of the
repository: the cooldown tracker (debounce.py), the OCR helper
(ocr_utils.py), the template matcher and region loader (engine.py), the
perk-selection handler and one iteration of the scheduler loop
(TowerBot._loop in engine.py).  External collaborators (screen capture,
the Tesseract engine, OpenCV matrix primitives, tap injection) are
modelled as oracle structures; time is passed in explicitly as a
rational number.  Taps are recorded as an output list instead of being
injected.
-/

namespace TowerBotNative

/-- A rectangular screen region (x, y, width, height), as in config.py. -/
abbrev Region := Nat × Nat × Nat × Nat

/-- A direct-tap point (x, y). -/
abbrev Coord := Nat × Nat

/-- engine.BotState. -/
inductive BotState where
  | IDLE
  | UPGRADING
  | PERK_SELECTING
  | WAITING
deriving DecidableEq

/- ──────────────────────────────────────────────────────────────
   Python dict operations on association lists (string keys).
   getA is d.get(k) / d[k]; setAssoc is d[k] = v.  ────────────── -/

/-- Lookup in a string-keyed association list (first occurrence). -/
def getA {α : Type} : List (String × α) → String → Option α
  | [], _ => none
  | (k0, v0) :: t, k => if k0 = k then some v0 else getA t k

/-- Python d.get(k, v0) on a rational-valued dict. -/
def getD (m : List (String × ℚ)) (k : String) (v0 : ℚ) : ℚ :=
  (getA m k).getD v0

/-- Python d[k] = v: overwrite the first binding of k, else append. -/
def setAssoc {α : Type} : List (String × α) → String → α → List (String × α)
  | [], k, v => [(k, v)]
  | (k0, v0) :: t, k, v =>
    if k0 = k then (k, v) :: t else (k0, v0) :: setAssoc t k v

/- ──────────────────────────────────────────────────────────────
   config.py defaults.  ──────────────────────────────────────── -/

/-- config.PERK_PRIORITY_DEFAULT. -/
def PERK_PRIORITY_DEFAULT : List String :=
  ["increase max game speed", "perk wave requirement", "all coins bonuses",
   "cash bonus", "golden tower bonus", "black hole duration",
   "free upgrade chance", "defense percent", "max health",
   "unlock a random ultimate weapon", "enemies have", "damage",
   "defense absolute", "land mine damage", "orbs", "bounce shot",
   "chain lightning damage", "boss health but boss speed", "swamp radius",
   "extra set of inner mines", "death wave", "spotlight damage bonus",
   "chrono field duration", "more smart missiles", "interest",
   "health regen", "tower damage but bosses", "enemies damage tower damage",
   "enemies speed but enemies damage", "ranged enemies attack distance",
   "cash per wave", "lifesteal but knockback", "coins per wave tower health",
   "tower health regen but tower", "coins but tower max"]

/-- engine.BotConfig: toggles, thresholds, intervals, regions, tap points,
the perk priority list, and the internal cooldown ledger and per-task
cooldown-time override map.  Defaults mirror config.DEFAULT_REGIONS and
the dataclass field defaults. -/
structure BotConfig where
  retry_enabled : Bool := true
  health_enabled : Bool := true
  abs_def_enabled : Bool := true
  gems_enabled : Bool := true
  float_enabled : Bool := false
  perk_enabled : Bool := false
  debug_enabled : Bool := false
  running : Bool := false
  state : BotState := BotState.IDLE
  wave_number : Nat := 0
  health_stop : Nat := 999999
  abs_def_stop : Nat := 999999
  perk_stop : Nat := 999999
  retry_interval : ℚ := 2
  defence_interval : ℚ := 1
  upgrade_interval : ℚ := 1
  gems_interval : ℚ := 1
  wave_interval : ℚ := 1
  float_interval : ℚ := 2
  perk_interval : ℚ := 2
  new_perk_region : Region := (483, 194, 505, 73)
  perk1_region : Region := (159, 553, 1124, 243)
  perk2_region : Region := (159, 818, 1124, 213)
  perk3_region : Region := (159, 1072, 1124, 224)
  perk4_region : Region := (159, 1336, 1124, 224)
  retry1_region : Region := (250, 1850, 280, 80)
  retry2_region : Region := (256, 1920, 284, 80)
  defence_region : Region := (10, 1490, 820, 90)
  health_region : Region := (400, 1785, 270, 45)
  abs_def_region : Region := (1088, 2065, 276, 38)
  claim_region : Region := (86, 1023, 216, 68)
  wave_region : Region := (743, 1315, 377, 65)
  float_gem_coord : Coord := (960, 748)
  def_tab_tap_coord : Coord := (530, 2420)
  perk_priority : List String := PERK_PRIORITY_DEFAULT
  _cooldown : List (String × ℚ) := []
  _cooldown_time : List (String × ℚ) :=
    [("retry", 2), ("def", 1), ("upg", 1), ("gems", 1), ("float", 2), ("perk", 3)]
deriving DecidableEq

/-- The default BotConfig(). -/
def defaultConfig : BotConfig := {}

/- ──────────────────────────────────────────────────────────────
   debounce.py  ─────────────────────────────────────────────── -/

/-- getattr(cfg, key + "_interval", 0): the generic attribute-name lookup
of a per-task interval field, defaulting to 0 for unknown keys. -/
def getattrInterval (cfg : BotConfig) (key : String) : ℚ :=
  if key = "retry" then cfg.retry_interval
  else if key = "defence" then cfg.defence_interval
  else if key = "upgrade" then cfg.upgrade_interval
  else if key = "gems" then cfg.gems_interval
  else if key = "wave" then cfg.wave_interval
  else if key = "float" then cfg.float_interval
  else if key = "perk" then cfg.perk_interval
  else 0

/-- debounce.can_act, line: interval = cfg._cooldown_time.get(key,
getattr(cfg, key + "_interval", 0)). -/
def resolveInterval (cfg : BotConfig) (key : String) : ℚ :=
  match getA cfg._cooldown_time key with
  | some v => v
  | none => getattrInterval cfg key

/-- debounce.can_act, with the wall clock passed in explicitly as now.
Returns the boolean result together with the (possibly) updated config:
on eligibility (now at or past the ledger entry, a missing entry counting
as 0) the ledger entry is overwritten with now + interval and the call
returns true; otherwise false with no mutation. -/
def can_act (cfg : BotConfig) (key : String) (now : ℚ) : Bool × BotConfig :=
  let interval := resolveInterval cfg key
  if getD cfg._cooldown key 0 ≤ now then
    (true, { cfg with _cooldown := setAssoc cfg._cooldown key (now + interval) })
  else
    (false, cfg)

/- ──────────────────────────────────────────────────────────────
   Python string helpers (ASCII model).  ────────────────────── -/

/-- Python str.lower (ASCII model). -/
def lowerStr (s : String) : String := ⟨s.data.map Char.toLower⟩

/-- Python needle in hay (substring containment), on character lists. -/
def isSubList (n : List Char) : List Char → Bool
  | [] => n.isEmpty
  | c :: t => n.isPrefixOf (c :: t) || isSubList n t

/-- Python needle in hay on strings. -/
def strContains (hay needle : String) : Bool := isSubList needle.data hay.data

/-- Python whitespace predicate for str.strip. -/
def isSpaceChar (c : Char) : Bool :=
  c = ' ' || c = '\t' || c = '\n' || c = '\r' || c = '\x0b' || c = '\x0c'

/-- Python str.strip(). -/
def pyStrip (s : String) : String :=
  ⟨((s.data.dropWhile isSpaceChar).reverse.dropWhile isSpaceChar).reverse⟩

/-- Python s.replace(newline, space): a single-character replacement is a
character-wise map. -/
def replaceNewlines (s : String) : String :=
  ⟨s.data.map (fun c => if c = '\n' then ' ' else c)⟩

/- ──────────────────────────────────────────────────────────────
   ocr_utils.py  ────────────────────────────────────────────── -/

/-- Outcome of the pytesseract.image_to_string call: a recognized string,
the Tesseract binary not found (pytesseract.TesseractNotFoundError), or
another engine failure such as a nonzero exit status
(pytesseract.TesseractError, carrying a message). -/
inductive TessOutcome where
  | ok (txt : String)
  | notFound
  | tessError (msg : String)
deriving DecidableEq

/-- The Tesseract collaborator: the PIL preprocessing chain
(crop/convert/resize/contrast/sharpness/threshold) folded into one
image-to-image map, the engine call, and the timing measurement. -/
structure OcrEngine (Img : Type) where
  preprocess : Img → Region → Img
  image_to_string : Img → String → TessOutcome
  elapsed_ms : ℚ

/-- The Tesseract config string built by ocr_utils.ocr_text. -/
def tessConfig (whitelist : Option String) : String :=
  match whitelist with
  | some w => "--oem 3 --psm 7 -c tessedit_char_whitelist=" ++ w
  | none => "--oem 3 --psm 7"

/-- ocr_utils.ocr_text: preprocess the region crop, call the engine, and
on success return the newline-replaced, lowercased, stripped text with
the elapsed time.  The only exception handled is TesseractNotFoundError,
which yields the pair of empty text and 0.0; any other engine exception
propagates to the caller, modelled as Except.error. -/
def ocr_text {Img : Type} (E : OcrEngine Img) (img : Img) (region : Region)
    (whitelist : Option String) : Except String (String × ℚ) :=
  let crop := E.preprocess img region
  match E.image_to_string crop (tessConfig whitelist) with
  | TessOutcome.notFound => Except.ok ("", 0)
  | TessOutcome.tessError msg => Except.error msg
  | TessOutcome.ok txt =>
      Except.ok (pyStrip (lowerStr (replaceNewlines txt)), E.elapsed_ms)

/- ──────────────────────────────────────────────────────────────
   engine.cv_match  ─────────────────────────────────────────── -/

/-- OpenCV matrix primitives, as oracles over an abstract matrix type:
shape gives (rows, cols); resize m (w, h) is cv2.resize(m, (w, h),
interpolation=cv2.INTER_AREA); matchMax sub tpl is the maximum value of
cv2.matchTemplate(sub, tpl, cv2.TM_CCOEFF_NORMED). -/
structure CvPrims (Mat : Type) where
  shape : Mat → Nat × Nat
  resize : Mat → Nat × Nat → Mat
  matchMax : Mat → Mat → ℚ

/-- engine.cv_match: resize the template to the crop dimensions when they
differ, then return the maximum normalized cross-correlation score. -/
def cv_match {Mat : Type} (C : CvPrims Mat) (sub tpl : Mat) : ℚ :=
  let hs := (C.shape sub).1
  let ws := (C.shape sub).2
  let ht := (C.shape tpl).1
  let wt := (C.shape tpl).2
  if (hs, ws) ≠ (ht, wt) then C.matchMax sub (C.resize tpl (ws, hs))
  else C.matchMax sub tpl

/- ──────────────────────────────────────────────────────────────
   re.search of the word-bounded digit-run pattern (engine._loop
   wave block).  ─────────────────────────────────────────────── -/

/-- Python re word character (ASCII model): letters, digits, underscore. -/
def wordChar (c : Char) : Bool := c.isAlphanum || c = '_'

/-- Scanner for the regex used by the wave block (a word boundary, one or
more digits, a word boundary): okStart records whether the position just
before the current character is a valid word-boundary start for a digit
run; run holds the digits of the current candidate run, reversed.  The
result is the first maximal digit run whose neighbours on both sides are
word boundaries, exactly re.search leftmost-match semantics. -/
def bdrAux : List Char → Bool → List Char → Option (List Char)
  | [], _, run => if run.isEmpty then none else some run.reverse
  | c :: t, okStart, run =>
    if c.isDigit then
      if run.isEmpty then
        if okStart then bdrAux t okStart [c]
        else bdrAux t false []
      else bdrAux t okStart (c :: run)
    else
      if run.isEmpty then bdrAux t (!(wordChar c)) []
      else if wordChar c then bdrAux t false []
      else some run.reverse

/-- The group captured by re.search of the word-bounded digit-run pattern
on the text, if any. -/
def reSearchDigits (s : String) : Option (List Char) := bdrAux s.data true []

/-- Python int() of a digit string. -/
def natOfDigits (l : List Char) : Nat :=
  l.foldl (fun a c => a * 10 + (c.toNat - 48)) 0

/-- Modelled from the spec: "parse the first run of digits" — the first
maximal run of digit characters in the text, with no word-boundary
requirement.  Used to compare the spec wording with the code. -/
def firstDigitRun : List Char → Option (List Char)
  | [] => none
  | c :: t =>
    if c.isDigit then some ((c :: t).takeWhile Char.isDigit)
    else firstDigitRun t

/- ──────────────────────────────────────────────────────────────
   The scheduler loop collaborators and one tick of
   engine.TowerBot._loop.  ──────────────────────────────────── -/

/-- The collaborators one tick consumes, over abstract frame (Img) and
grayscale-matrix (Mat) types: ocr_text is the total collaborator view of
ocr_utils.ocr_text (text with elapsed time), region_has_white is
ocr_utils.region_has_white, crop m r is the NumPy slice of the rows and
columns of r, and cv bundles the OpenCV primitives. -/
structure Prims (Img Mat : Type) where
  ocr_text : Img → Region → Option String → String × ℚ
  region_has_white : Img → Region → Bool
  crop : Mat → Region → Mat
  cv : CvPrims Mat

/-- What one tick observes: the captured frame, its grayscale conversion,
and the template table loaded at import time (TEMPLATES). -/
structure Env (Img Mat : Type) where
  img : Img
  gray : Mat
  templates : String → Option Mat

/-- The mutable loop state threaded through one tick: the shared config,
the per-task next-eligible map self._next, and the taps issued so far in
the tick (mac_tap calls, in order). -/
structure LoopSt where
  cfg : BotConfig
  next : List (String × ℚ)
  taps : List Coord
deriving DecidableEq

/-- The four perk regions in their fixed scan order. -/
def perkRegions (cfg : BotConfig) : List Region :=
  [cfg.perk1_region, cfg.perk2_region, cfg.perk3_region, cfg.perk4_region]

/-- The nested priority/region search of _handle_perk_selection: iterate
perk_priority in order; for each priority, take the first text region
containing it; stop at the first hit. -/
def findChosen (prios : List String) (trs : List (Nat × String × Region)) :
    Option (String × Nat × Region) :=
  match prios with
  | [] => none
  | p :: ps =>
    match trs.find? (fun t => strContains t.2.1 p) with
    | some (idx, low, reg) => some (p, idx, reg)
    | none => findChosen ps trs

/-- The text_regions list built by _handle_perk_selection: for each perk
region in order (1-based index), the lowercased OCR text and the
region. -/
def perkTextRegions {Img Mat : Type} (P : Prims Img Mat) (env : Env Img Mat)
    (cfg : BotConfig) : List (Nat × String × Region) :=
  (perkRegions cfg).enum.map
    (fun jr => (jr.1 + 1, lowerStr (P.ocr_text env.img jr.2 none).1, jr.2))

/-- engine.TowerBot._handle_perk_selection: OCR the four perk regions (in
order, 1-based), lowercase each text, search priorities against them, tap
the centre of the chosen region if any, and clear the state to IDLE.
Returns the updated config and the taps issued. -/
def handle_perk_selection {Img Mat : Type} (P : Prims Img Mat)
    (env : Env Img Mat) (cfg : BotConfig) : BotConfig × List Coord :=
  match findChosen cfg.perk_priority (perkTextRegions P env cfg) with
  | some (_, _, (x, y, w, h)) =>
      ({ cfg with state := BotState.IDLE }, [(x + w / 2, y + h / 2)])
  | none => ({ cfg with state := BotState.IDLE }, [])

/-- Block 1 of the tick: wave OCR.  Gated only by its own interval; OCR
the wave region with the digit whitelist, run re.search for a
word-bounded digit run, and overwrite wave_number on a match. -/
def tickWave {Img Mat : Type} (P : Prims Img Mat) (env : Env Img Mat)
    (now : ℚ) (s : LoopSt) : LoopSt :=
  if getD s.next "wave" 0 ≤ now then
    let next := setAssoc s.next "wave" (now + s.cfg.wave_interval)
    let txt := (P.ocr_text env.img s.cfg.wave_region (some "0123456789")).1
    match reSearchDigits txt with
    | some run =>
        { s with cfg := { s.cfg with wave_number := natOfDigits run },
                 next := next }
    | none => { s with next := next }
  else s

/-- Block 2 of the tick: retry OCR.  Gated by toggle, interval, and
cooldown; tap the centre of the first retry region whose lowercased text
contains "retry". -/
def tickRetry {Img Mat : Type} (P : Prims Img Mat) (env : Env Img Mat)
    (now : ℚ) (s : LoopSt) : LoopSt :=
  if s.cfg.retry_enabled = true ∧ getD s.next "retry" 0 ≤ now then
    match can_act s.cfg "retry" now with
    | (true, cfg) =>
      let next := setAssoc s.next "retry" (now + cfg.retry_interval)
      match [cfg.retry1_region, cfg.retry2_region].find?
          (fun r => strContains (lowerStr (P.ocr_text env.img r none).1) "retry") with
      | some (x, y, w, h) =>
          { cfg := cfg, next := next, taps := s.taps ++ [(x + w / 2, y + h / 2)] }
      | none => { cfg := cfg, next := next, taps := s.taps }
    | (false, cfg) => { s with cfg := cfg }
  else s

/-- The defence-tab detector of block 3: template strategy when the
defence template is loaded (score at least 0.70), else the OCR fallback
("defense"/"defence" together with "upgrade"). -/
def defenceActive {Img Mat : Type} (P : Prims Img Mat) (env : Env Img Mat)
    (cfg : BotConfig) : Bool :=
  match env.templates "defence_region" with
  | some tpl =>
      let sub := P.crop env.gray cfg.defence_region
      decide (7 / 10 ≤ cv_match P.cv sub tpl)
  | none =>
      let low := lowerStr (P.ocr_text env.img cfg.defence_region none).1
      (strContains low "defense" || strContains low "defence") &&
        strContains low "upgrade"

/-- Block 3 of the tick: defence tab.  Gated by its interval only; if the
tab is inactive and the cooldown allows, tap the fixed defence-tab
coordinate. -/
def tickDefence {Img Mat : Type} (P : Prims Img Mat) (env : Env Img Mat)
    (now : ℚ) (s : LoopSt) : LoopSt :=
  if getD s.next "def" 0 ≤ now then
    let next := setAssoc s.next "def" (now + s.cfg.defence_interval)
    let active := defenceActive P env s.cfg
    if active = false then
      match can_act s.cfg "def" now with
      | (true, cfg) =>
          { cfg := cfg, next := next, taps := s.taps ++ [cfg.def_tab_tap_coord] }
      | (false, cfg) => { cfg := cfg, next := next, taps := s.taps }
    else { s with next := next }
  else s

/-- Block 4 of the tick: the health and absolute-defence upgrades, sharing
the single "upg" interval and cooldown slot; each is further gated by its
own toggle and its own wave-stop threshold, and taps its region centre
when the near-white-pixel check holds. -/
def tickUpgrade {Img Mat : Type} (P : Prims Img Mat) (env : Env Img Mat)
    (now : ℚ) (s : LoopSt) : LoopSt :=
  if getD s.next "upg" 0 ≤ now then
    match can_act s.cfg "upg" now with
    | (true, cfg) =>
      let next := setAssoc s.next "upg" (now + cfg.upgrade_interval)
      let taps1 :=
        if cfg.health_enabled = true ∧ cfg.wave_number < cfg.health_stop ∧
            P.region_has_white env.img cfg.health_region = true then
          let (x, y, w, h) := cfg.health_region
          s.taps ++ [(x + w / 2, y + h / 2)]
        else s.taps
      let taps2 :=
        if cfg.abs_def_enabled = true ∧ cfg.wave_number < cfg.abs_def_stop ∧
            P.region_has_white env.img cfg.abs_def_region = true then
          let (x, y, w, h) := cfg.abs_def_region
          taps1 ++ [(x + w / 2, y + h / 2)]
        else taps1
      { cfg := cfg, next := next, taps := taps2 }
    | (false, cfg) => { s with cfg := cfg }
  else s

/-- Block 5 of the tick: floating-gem blind tap, gated by toggle,
interval, and cooldown. -/
def tickFloat {Img Mat : Type} (P : Prims Img Mat) (env : Env Img Mat)
    (now : ℚ) (s : LoopSt) : LoopSt :=
  if s.cfg.float_enabled = true ∧ getD s.next "float" 0 ≤ now then
    match can_act s.cfg "float" now with
    | (true, cfg) =>
        { cfg := cfg, next := setAssoc s.next "float" (now + cfg.float_interval),
          taps := s.taps ++ [cfg.float_gem_coord] }
    | (false, cfg) => { s with cfg := cfg }
  else s

/-- Block 6 of the tick: gems claim, gated by toggle, interval, and
cooldown; template strategy when loaded, else the OCR "claim" keyword;
taps the claim-region centre on a positive detection. -/
def tickGems {Img Mat : Type} (P : Prims Img Mat) (env : Env Img Mat)
    (now : ℚ) (s : LoopSt) : LoopSt :=
  if s.cfg.gems_enabled = true ∧ getD s.next "gems" 0 ≤ now then
    match can_act s.cfg "gems" now with
    | (true, cfg) =>
      let next := setAssoc s.next "gems" (now + cfg.gems_interval)
      let (x, y, w, h) := cfg.claim_region
      let sub := P.crop env.gray (x, y, w, h)
      match env.templates "claim_region" with
      | some tpl =>
          if 7 / 10 ≤ cv_match P.cv sub tpl then
            { cfg := cfg, next := next, taps := s.taps ++ [(x + w / 2, y + h / 2)] }
          else { cfg := cfg, next := next, taps := s.taps }
      | none =>
          if strContains (lowerStr (P.ocr_text env.img cfg.claim_region none).1)
              "claim" = true then
            { cfg := cfg, next := next, taps := s.taps ++ [(x + w / 2, y + h / 2)] }
          else { cfg := cfg, next := next, taps := s.taps }
    | (false, cfg) => { s with cfg := cfg }
  else s

/-- Block 7 of the tick: new-perk detection, gated by toggle, interval,
and cooldown; template strategy when loaded, else the OCR keyword; on a
trigger, tap the region centre and switch the state to PERK_SELECTING. -/
def tickNewPerk {Img Mat : Type} (P : Prims Img Mat) (env : Env Img Mat)
    (now : ℚ) (s : LoopSt) : LoopSt :=
  if s.cfg.perk_enabled = true ∧ getD s.next "perk" 0 ≤ now then
    match can_act s.cfg "perk" now with
    | (true, cfg) =>
      let next := setAssoc s.next "perk" (now + cfg.perk_interval)
      let (x, y, w, h) := cfg.new_perk_region
      let sub := P.crop env.gray (x, y, w, h)
      let triggered :=
        match env.templates "new_perk_region" with
        | some tpl => decide (7 / 10 ≤ cv_match P.cv sub tpl)
        | none =>
            strContains (lowerStr (P.ocr_text env.img cfg.new_perk_region none).1)
              "new perk"
      if triggered = true then
        { cfg := { cfg with state := BotState.PERK_SELECTING }, next := next,
          taps := s.taps ++ [(x + w / 2, y + h / 2)] }
      else { cfg := cfg, next := next, taps := s.taps }
    | (false, cfg) => { s with cfg := cfg }
  else s

/-- One full iteration of the while body of engine.TowerBot._loop: when
the state is PERK_SELECTING, only the perk handler runs and the tick ends
(the continue); otherwise the seven task blocks run in their fixed
order.  Taps issued during the tick are collected in order. -/
def tick {Img Mat : Type} (P : Prims Img Mat) (env : Env Img Mat) (now : ℚ)
    (cfg : BotConfig) (next : List (String × ℚ)) : LoopSt :=
  if cfg.state = BotState.PERK_SELECTING then
    let r := handle_perk_selection P env cfg
    { cfg := r.1, next := next, taps := r.2 }
  else
    tickNewPerk P env now (tickGems P env now (tickFloat P env now
      (tickUpgrade P env now (tickDefence P env now (tickRetry P env now
        (tickWave P env now { cfg := cfg, next := next, taps := [] }))))))

/- ──────────────────────────────────────────────────────────────
   engine.load_regions  ─────────────────────────────────────── -/

/-- A dynamically-typed Python attribute value, for the setattr-based
region loader: a tuple built from a JSON list, or any other value. -/
inductive PyVal where
  | tup (l : List Int)
  | other (tag : Nat)
deriving DecidableEq

/-- An object's attribute store: attribute name to current value. -/
abbrev AttrStore := List (String × PyVal)

/-- Python hasattr(cfg, k) over an attribute store. -/
def hasattrS (cfg : AttrStore) (k : String) : Bool := (getA cfg k).isSome

/-- engine.load_regions, the JSON-driven loop (the create-if-missing file
write is I/O, outside this model): for key, val in data.items(), when the
config has an attribute of that name, set it to tuple(val); otherwise do
nothing for that key. -/
def load_regions (data : List (String × List Int)) (cfg : AttrStore) : AttrStore :=
  data.foldl
    (fun c kv => if hasattrS c kv.1 = true then setAssoc c kv.1 (PyVal.tup kv.2) else c)
    cfg

/- ──────────────────────────────────────────────────────────────
   Association-list lemmas.  ─────────────────────────────────── -/

theorem getA_setAssoc_self {α : Type} (m : List (String × α)) (k : String) (v : α) :
    getA (setAssoc m k v) k = some v := by
  induction m with
  | nil => simp [setAssoc, getA]
  | cons hd t ih =>
    obtain ⟨k0, v0⟩ := hd
    by_cases hk : k0 = k
    · simp [setAssoc, hk, getA]
    · simp [setAssoc, hk, getA, ih]

theorem getA_setAssoc_ne {α : Type} (m : List (String × α)) (k k' : String)
    (v : α) (h : k' ≠ k) : getA (setAssoc m k v) k' = getA m k' := by
  have hne : ¬ k = k' := fun hh => h hh.symm
  induction m with
  | nil => simp [setAssoc, getA, hne]
  | cons hd t ih =>
    obtain ⟨k0, v0⟩ := hd
    by_cases hk : k0 = k
    · subst hk
      simp [setAssoc, getA, hne]
    · by_cases hk' : k0 = k'
      · subst hk'
        simp [setAssoc, hk, getA]
      · simp [setAssoc, hk, getA, hk', ih]

theorem hasattrS_setAssoc (m : AttrStore) (k k' : String) (v : PyVal) :
    hasattrS m k = true → hasattrS (setAssoc m k' v) k = true := by
  intro h
  by_cases hk : k = k'
  · subst hk; simp [hasattrS, getA_setAssoc_self]
  · simpa [hasattrS, getA_setAssoc_ne m k' k v hk] using h

/- ──────────────────────────────────────────────────────────────
   C3: the cooldown tracker contract.  ──────────────────────── -/

theorem can_act_eq_true (cfg : BotConfig) (key : String) (now : ℚ)
    (h : getD cfg._cooldown key 0 ≤ now) :
    can_act cfg key now =
      (true, { cfg with
        _cooldown := setAssoc cfg._cooldown key (now + resolveInterval cfg key) }) := by
  simp [can_act, h]

theorem can_act_eq_false (cfg : BotConfig) (key : String) (now : ℚ)
    (h : ¬ getD cfg._cooldown key 0 ≤ now) :
    can_act cfg key now = (false, cfg) := by
  simp [can_act, h]

/-- C3: for every call can_act(cfg, key): if now is at or past the ledger
entry (a missing entry counting as 0), the call writes
ledger[key] = now + interval and returns true unconditionally on
eligibility; otherwise it returns false with no mutation.  The interval
resolves from the per-task override map when the key is present there,
else from the "<key>_interval" configuration field (0 for keys without
such a field).  Written ledger values are monotone non-decreasing (for a
non-negative interval), can_act returns true at most once per interval,
each true result advancing the next-eligible time by exactly the
interval, and no other key's ledger entry is touched. -/
theorem can_act_contract (cfg : BotConfig) (key : String) (now now2 : ℚ) :
    (getD cfg._cooldown key 0 ≤ now →
      can_act cfg key now =
        (true, { cfg with
          _cooldown := setAssoc cfg._cooldown key (now + resolveInterval cfg key) }) ∧
      getD (can_act cfg key now).2._cooldown key 0 = now + resolveInterval cfg key) ∧
    (¬ getD cfg._cooldown key 0 ≤ now → can_act cfg key now = (false, cfg)) ∧
    (∀ v, getA cfg._cooldown_time key = some v → resolveInterval cfg key = v) ∧
    (getA cfg._cooldown_time key = none →
      resolveInterval cfg key = getattrInterval cfg key) ∧
    (0 ≤ resolveInterval cfg key → (can_act cfg key now).1 = true →
      getD cfg._cooldown key 0 ≤ getD (can_act cfg key now).2._cooldown key 0) ∧
    ((can_act cfg key now).1 = true → now2 < now + resolveInterval cfg key →
      (can_act (can_act cfg key now).2 key now2).1 = false) ∧
    (∀ k', k' ≠ key → getA (can_act cfg key now).2._cooldown k' = getA cfg._cooldown k') := by
  by_cases h : getD cfg._cooldown key 0 ≤ now
  · have heq := can_act_eq_true cfg key now h
    have hnew : getD (can_act cfg key now).2._cooldown key 0 =
        now + resolveInterval cfg key := by
      rw [heq]
      simp [getD, getA_setAssoc_self]
    refine ⟨fun _ => ⟨heq, hnew⟩, fun hc => absurd h hc, ?_, ?_, ?_, ?_, ?_⟩
    · intro v hv; simp [resolveInterval, hv]
    · intro hv; simp [resolveInterval, hv]
    · intro hi _
      rw [hnew]
      linarith
    · intro _ hlt
      have hcond : ¬ getD (can_act cfg key now).2._cooldown key 0 ≤ now2 := by
        rw [hnew]; linarith
      rw [can_act_eq_false _ _ _ hcond]
    · intro k' hk'
      rw [heq]
      exact getA_setAssoc_ne _ _ _ _ hk'
  · have heq := can_act_eq_false cfg key now h
    refine ⟨fun hc => absurd hc h, fun _ => heq, ?_, ?_, ?_, ?_, ?_⟩
    · intro v hv; simp [resolveInterval, hv]
    · intro hv; simp [resolveInterval, hv]
    · intro _ htrue
      rw [heq] at htrue
      exact absurd htrue (by simp)
    · intro htrue
      rw [heq] at htrue
      exact absurd htrue (by simp)
    · intro k' _
      rw [heq]

/-- Witness for C3 at the "retry" key of the default config, at time 5,
with a second call at time 6 (inside the 2-second retry interval). -/
theorem can_act_contract_witness :
    (getD defaultConfig._cooldown "retry" 0 ≤ (5 : ℚ)) ∧
    can_act defaultConfig "retry" 5 =
      (true, { defaultConfig with
        _cooldown := setAssoc defaultConfig._cooldown "retry"
          (5 + resolveInterval defaultConfig "retry") }) ∧
    (can_act (can_act defaultConfig "retry" 5).2 "retry" 6).1 = false := by
  have h := can_act_contract defaultConfig "retry" 5 6
  have h0 : getD defaultConfig._cooldown "retry" 0 ≤ (5 : ℚ) := by
    show (0 : ℚ) ≤ 5
    norm_num
  have hres : resolveInterval defaultConfig "retry" = 2 := rfl
  have htrue : (can_act defaultConfig "retry" 5).1 = true := by
    rw [can_act_eq_true defaultConfig "retry" 5 h0]
  have hlt : (6 : ℚ) < 5 + resolveInterval defaultConfig "retry" := by
    rw [hres]; norm_num
  exact ⟨h0, (h.1 h0).1, h.2.2.2.2.2.1 htrue hlt⟩

/- ──────────────────────────────────────────────────────────────
   C9: ocr_text error handling.  ─────────────────────────────── -/

/-- A Tesseract collaborator whose engine call fails with a
TesseractError, as pytesseract raises for a mis-configured invocation in
which the binary itself is present (for example a nonzero exit status
caused by bad configuration).  The try/except in ocr_utils.ocr_text does
not catch this class. -/
def tessErrorEngine : OcrEngine Unit :=
  { preprocess := fun _ _ => ()
    image_to_string := fun _ _ => TessOutcome.tessError "tesseract failed"
    elapsed_ms := 1 }

/-- C9 counterexample: with the engine present but mis-configured
(pytesseract.TesseractError), ocr_text propagates the exception instead
of returning the pair of empty text and 0.0 — the except clause handles
only TesseractNotFoundError. -/
theorem ocr_text_misconfigured_raises :
    ocr_text tessErrorEngine () (0, 0, 4, 4) none = Except.error "tesseract failed" ∧
    ocr_text tessErrorEngine () (0, 0, 4, 4) none ≠ Except.ok ("", 0) := by
  refine ⟨rfl, ?_⟩
  intro h
  rw [show ocr_text tessErrorEngine () (0, 0, 4, 4) none =
    Except.error "tesseract failed" from rfl] at h
  exact Except.noConfusion h

/-- C9 (amended): when the underlying recognition engine is unavailable —
the Tesseract binary cannot be found or invoked, the one exception class
the helper handles — ocr_text returns the pair of empty text and 0.0
rather than raising; other engine exceptions propagate. -/
theorem ocr_text_unavailable_spec {Img : Type} (E : OcrEngine Img) (img : Img)
    (region : Region) (wl : Option String)
    (h : E.image_to_string (E.preprocess img region) (tessConfig wl) =
      TessOutcome.notFound) :
    ocr_text E img region wl = Except.ok ("", 0) := by
  simp [ocr_text, h]

/-- A Tesseract collaborator with the binary missing: every engine call
raises TesseractNotFoundError. -/
def notFoundEngine : OcrEngine Unit :=
  { preprocess := fun _ _ => ()
    image_to_string := fun _ _ => TessOutcome.notFound
    elapsed_ms := 3 }

/-- Witness for the amended C9 at a concrete missing-binary engine. -/
theorem ocr_text_unavailable_witness :
    notFoundEngine.image_to_string (notFoundEngine.preprocess () (1, 2, 3, 4))
      (tessConfig none) = TessOutcome.notFound ∧
    ocr_text notFoundEngine () (1, 2, 3, 4) none = Except.ok ("", 0) :=
  ⟨rfl, ocr_text_unavailable_spec notFoundEngine () (1, 2, 3, 4) none rfl⟩

/- ──────────────────────────────────────────────────────────────
   C10: load_regions.  ──────────────────────────────────────── -/

theorem load_regions_absent (data : List (String × List Int)) :
    ∀ (cfg : AttrStore) (k : String), getA cfg k = none →
      getA (load_regions data cfg) k = none := by
  induction data with
  | nil => intro cfg k h; simpa [load_regions] using h
  | cons d ds ih =>
    intro cfg k h
    obtain ⟨k0, v0⟩ := d
    have hstep : load_regions ((k0, v0) :: ds) cfg =
        load_regions ds
          (if hasattrS cfg k0 = true then setAssoc cfg k0 (PyVal.tup v0) else cfg) := by
      simp [load_regions]
    rw [hstep]
    by_cases ha : hasattrS cfg k0 = true
    · have hk : k0 ≠ k := by
        intro hh
        subst hh
        rw [hasattrS, h] at ha
        simp at ha
      rw [if_pos ha]
      exact ih _ k (by rw [getA_setAssoc_ne cfg k0 k _ (fun hh => hk hh.symm)]; exact h)
    · rw [if_neg ha]
      exact ih cfg k h

theorem load_regions_untouched (data : List (String × List Int)) :
    ∀ (cfg : AttrStore) (k : String), k ∉ data.map Prod.fst →
      getA (load_regions data cfg) k = getA cfg k := by
  induction data with
  | nil => intro cfg k _; simp [load_regions]
  | cons d ds ih =>
    intro cfg k h
    obtain ⟨k0, v0⟩ := d
    have hk : k ≠ k0 := by
      intro hh; exact h (by simp [hh])
    have hds : k ∉ ds.map Prod.fst := by
      intro hh; exact h (by simp [hh])
    have hstep : load_regions ((k0, v0) :: ds) cfg =
        load_regions ds
          (if hasattrS cfg k0 = true then setAssoc cfg k0 (PyVal.tup v0) else cfg) := by
      simp [load_regions]
    rw [hstep]
    by_cases ha : hasattrS cfg k0 = true
    · rw [if_pos ha, ih _ k hds, getA_setAssoc_ne cfg k0 k _ hk]
    · rw [if_neg ha]
      exact ih cfg k hds

/-- C10: for every key/value pair in the persisted regions mapping,
load_regions assigns tuple(value) to the attribute of that name exactly
when an attribute of that name already exists on the config; keys naming
no existing attribute are silently ignored (no attribute is created, no
error is raised), and keys absent from the mapping leave their attribute
unchanged. -/
theorem load_regions_present (data : List (String × List Int)) :
    ∀ (cfg : AttrStore), (data.map Prod.fst).Nodup →
      ∀ k v, (k, v) ∈ data → hasattrS cfg k = true →
        getA (load_regions data cfg) k = some (PyVal.tup v) := by
  induction data with
  | nil => intro cfg _ k v hmem; simp at hmem
  | cons d ds ih =>
    intro cfg hnd k v hmem ha
    obtain ⟨k0, v0⟩ := d
    rw [List.map_cons] at hnd
    obtain ⟨hk0, hndds⟩ := List.nodup_cons.mp hnd
    have hstep : load_regions ((k0, v0) :: ds) cfg =
        load_regions ds
          (if hasattrS cfg k0 = true then setAssoc cfg k0 (PyVal.tup v0) else cfg) := by
      simp [load_regions]
    rw [hstep]
    rcases List.mem_cons.mp hmem with heq | hmemds
    · obtain ⟨hk, hv⟩ := Prod.mk.injEq .. ▸ heq
      subst hk; subst hv
      rw [if_pos ha]
      rw [load_regions_untouched ds (setAssoc cfg k (PyVal.tup v)) k hk0]
      exact getA_setAssoc_self cfg k (PyVal.tup v)
    · have hkne : k ≠ k0 := by
        intro hh
        subst hh
        exact hk0 (List.mem_map.mpr ⟨(k, v), hmemds, rfl⟩)
      by_cases hcase : hasattrS cfg k0 = true
      · rw [if_pos hcase]
        refine ih _ hndds k v hmemds ?_
        rw [hasattrS, getA_setAssoc_ne cfg k0 k _ hkne]
        exact ha
      · rw [if_neg hcase]
        exact ih cfg hndds k v hmemds ha

/-- C10: for every key/value pair in the persisted regions mapping,
load_regions assigns tuple(value) to the attribute of that name exactly
when an attribute of that name already exists on the config; keys naming
no existing attribute are silently ignored (no attribute is created, no
error is raised), and keys absent from the mapping leave their attribute
unchanged. -/
theorem load_regions_spec (data : List (String × List Int)) (cfg : AttrStore) :
    (∀ k, getA cfg k = none → getA (load_regions data cfg) k = none) ∧
    (∀ k, k ∉ data.map Prod.fst → getA (load_regions data cfg) k = getA cfg k) ∧
    ((data.map Prod.fst).Nodup →
      ∀ k v, (k, v) ∈ data → hasattrS cfg k = true →
        getA (load_regions data cfg) k = some (PyVal.tup v)) :=
  ⟨load_regions_absent data cfg, load_regions_untouched data cfg,
    fun hnd k v hmem ha => load_regions_present data cfg hnd k v hmem ha⟩

/-- Witness for C10: a mapping holding one known key and one unknown key,
against a config with two attributes. -/
theorem load_regions_spec_witness :
    getA ([("perk1_region", PyVal.other 0), ("wave_region", PyVal.other 1)] : AttrStore)
      "mystery_key" = none ∧
    getA (load_regions [("perk1_region", ([1, 2, 3, 4] : List Int)), ("mystery_key", [9])]
      [("perk1_region", PyVal.other 0), ("wave_region", PyVal.other 1)]) "mystery_key" = none ∧
    getA (load_regions [("perk1_region", ([1, 2, 3, 4] : List Int)), ("mystery_key", [9])]
      [("perk1_region", PyVal.other 0), ("wave_region", PyVal.other 1)]) "wave_region" =
      some (PyVal.other 1) ∧
    getA (load_regions [("perk1_region", ([1, 2, 3, 4] : List Int)), ("mystery_key", [9])]
      [("perk1_region", PyVal.other 0), ("wave_region", PyVal.other 1)]) "perk1_region" =
      some (PyVal.tup [1, 2, 3, 4]) := by
  have h := load_regions_spec
    [("perk1_region", ([1, 2, 3, 4] : List Int)), ("mystery_key", [9])]
    [("perk1_region", PyVal.other 0), ("wave_region", PyVal.other 1)]
  refine ⟨by decide, h.1 "mystery_key" (by decide), ?_, ?_⟩
  · have := h.2.1 "wave_region" (by decide)
    rw [this]
    decide
  · exact h.2.2 (by decide) "perk1_region" [1, 2, 3, 4] (by decide) (by decide)

/- ──────────────────────────────────────────────────────────────
   Perk-selection lemmas (C1, C2, C4).  ─────────────────────── -/

/-- The lowercased OCR texts of the four perk regions in their fixed scan
order. -/
def perkTexts {Img Mat : Type} (P : Prims Img Mat) (env : Env Img Mat)
    (cfg : BotConfig) : List String :=
  (perkRegions cfg).map (fun r => lowerStr (P.ocr_text env.img r none).1)

theorem perkTextRegions_texts {Img Mat : Type} (P : Prims Img Mat)
    (env : Env Img Mat) (cfg : BotConfig) :
    (perkTextRegions P env cfg).map (fun t => t.2.1) = perkTexts P env cfg := rfl

/-- Whatever the OCR texts, the perk handler leaves every config field
unchanged except the state, which becomes IDLE. -/
theorem handle_perk_cfg_eq {Img Mat : Type} (P : Prims Img Mat)
    (env : Env Img Mat) (cfg : BotConfig) :
    (handle_perk_selection P env cfg).1 = { cfg with state := BotState.IDLE } := by
  cases hfc : findChosen cfg.perk_priority (perkTextRegions P env cfg) with
  | none => simp [handle_perk_selection, hfc]
  | some c =>
    obtain ⟨p, idx, x, y, w, h⟩ := c
    simp [handle_perk_selection, hfc]

/-- The perk handler issues at most one tap. -/
theorem handle_perk_taps_le_one {Img Mat : Type} (P : Prims Img Mat)
    (env : Env Img Mat) (cfg : BotConfig) :
    (handle_perk_selection P env cfg).2.length ≤ 1 := by
  cases hfc : findChosen cfg.perk_priority (perkTextRegions P env cfg) with
  | none => simp [handle_perk_selection, hfc]
  | some c =>
    obtain ⟨p, idx, x, y, w, h⟩ := c
    simp [handle_perk_selection, hfc]

theorem findChosen_eq_none_of_no_match (prios : List String)
    (trs : List (Nat × String × Region))
    (h : ∀ p ∈ prios, ∀ tr ∈ trs, strContains tr.2.1 p = false) :
    findChosen prios trs = none := by
  induction prios with
  | nil => rfl
  | cons p ps ih =>
    have hfind : trs.find? (fun t => strContains t.2.1 p) = none := by
      rw [List.find?_eq_none]
      intro tr htr
      simp [h p (by simp) tr htr]
    simp [findChosen, hfind]
    exact ih (fun q hq tr htr => h q (by simp [hq]) tr htr)

/- ──────────────────────────────────────────────────────────────
   Concrete collaborators for witnesses.  ──────────────────── -/

/-- Trivial OpenCV primitives over a unit matrix type. -/
def unitCv : CvPrims Unit :=
  { shape := fun _ => (0, 0), resize := fun m _ => m, matchMax := fun _ _ => 0 }

/-- A frame oracle whose OCR always reads empty text, with no white
pixels anywhere. -/
def unitPrims : Prims Unit Unit :=
  { ocr_text := fun _ _ _ => ("", 0)
    region_has_white := fun _ _ => false
    crop := fun m _ => m
    cv := unitCv }

/-- An environment with no templates loaded. -/
def unitEnv : Env Unit Unit := { img := (), gray := (), templates := fun _ => none }

/- ──────────────────────────────────────────────────────────────
   C1: the PERK_SELECTING tick runs only the perk handler.  ── -/

/-- C1: in a tick that begins in PERK_SELECTING, the whole tick is the
perk-selection handler: the per-task next-eligible map and the cooldown
ledger are untouched, no task counter (wave number) changes, and at most
the handler's single tap is issued. -/
theorem perk_selecting_tick_isolated {Img Mat : Type} (P : Prims Img Mat)
    (env : Env Img Mat) (now : ℚ) (cfg : BotConfig) (next : List (String × ℚ))
    (h : cfg.state = BotState.PERK_SELECTING) :
    tick P env now cfg next =
      { cfg := (handle_perk_selection P env cfg).1, next := next,
        taps := (handle_perk_selection P env cfg).2 } ∧
    (tick P env now cfg next).cfg = { cfg with state := BotState.IDLE } ∧
    (tick P env now cfg next).cfg._cooldown = cfg._cooldown ∧
    (tick P env now cfg next).next = next ∧
    (tick P env now cfg next).cfg.wave_number = cfg.wave_number ∧
    (tick P env now cfg next).taps.length ≤ 1 := by
  have ht : tick P env now cfg next =
      { cfg := (handle_perk_selection P env cfg).1, next := next,
        taps := (handle_perk_selection P env cfg).2 } := by
    simp [tick, h]
  refine ⟨ht, ?_, ?_, ?_, ?_, ?_⟩
  · rw [ht]; exact handle_perk_cfg_eq P env cfg
  · rw [ht]; rw [handle_perk_cfg_eq P env cfg]
  · rw [ht]
  · rw [ht]; rw [handle_perk_cfg_eq P env cfg]
  · rw [ht]; exact handle_perk_taps_le_one P env cfg

/-- Witness for C1: the default config put in PERK_SELECTING, empty
collaborators, time 0. -/
theorem perk_selecting_tick_isolated_witness :
    ({ defaultConfig with state := BotState.PERK_SELECTING } : BotConfig).state =
      BotState.PERK_SELECTING ∧
    (tick unitPrims unitEnv 0 { defaultConfig with state := BotState.PERK_SELECTING } []).next =
      ([] : List (String × ℚ)) ∧
    (tick unitPrims unitEnv 0 { defaultConfig with state := BotState.PERK_SELECTING } []).cfg._cooldown =
      ({ defaultConfig with state := BotState.PERK_SELECTING } : BotConfig)._cooldown :=
  ⟨rfl,
    (perk_selecting_tick_isolated unitPrims unitEnv 0
      { defaultConfig with state := BotState.PERK_SELECTING } [] rfl).2.2.2.1,
    (perk_selecting_tick_isolated unitPrims unitEnv 0
      { defaultConfig with state := BotState.PERK_SELECTING } [] rfl).2.2.1⟩

/- ──────────────────────────────────────────────────────────────
   C4: no-match pass is a silent no-op and state returns to IDLE. ── -/

/-- C4: after every perk-selection pass the state is IDLE, and when no
priority phrase occurs in any of the four region texts, no tap is
issued. -/
theorem perk_no_match_spec {Img Mat : Type} (P : Prims Img Mat)
    (env : Env Img Mat) (cfg : BotConfig) :
    (handle_perk_selection P env cfg).1.state = BotState.IDLE ∧
    ((∀ p ∈ cfg.perk_priority, ∀ t ∈ perkTexts P env cfg, strContains t p = false) →
      (handle_perk_selection P env cfg).2 = []) := by
  constructor
  · rw [handle_perk_cfg_eq P env cfg]
  · intro h
    have hnone : findChosen cfg.perk_priority (perkTextRegions P env cfg) = none := by
      refine findChosen_eq_none_of_no_match _ _ ?_
      intro p hp tr htr
      refine h p hp tr.2.1 ?_
      rw [← perkTextRegions_texts P env cfg]
      exact List.mem_map.mpr ⟨tr, htr, rfl⟩
    simp [handle_perk_selection, hnone]

/-- Witness for C4: priority list ["zzz"] against empty region texts. -/
theorem perk_no_match_spec_witness :
    (∀ p ∈ ({ defaultConfig with perk_priority := ["zzz"] } : BotConfig).perk_priority,
      ∀ t ∈ perkTexts unitPrims unitEnv { defaultConfig with perk_priority := ["zzz"] },
        strContains t p = false) ∧
    (handle_perk_selection unitPrims unitEnv
      { defaultConfig with perk_priority := ["zzz"] }).1.state = BotState.IDLE ∧
    (handle_perk_selection unitPrims unitEnv
      { defaultConfig with perk_priority := ["zzz"] }).2 = [] := by
  have hno : ∀ p ∈ ({ defaultConfig with perk_priority := ["zzz"] } : BotConfig).perk_priority,
      ∀ t ∈ perkTexts unitPrims unitEnv { defaultConfig with perk_priority := ["zzz"] },
        strContains t p = false := by decide
  have h := perk_no_match_spec unitPrims unitEnv
    { defaultConfig with perk_priority := ["zzz"] }
  exact ⟨hno, h.1, h.2 hno⟩

/- ──────────────────────────────────────────────────────────────
   C2: strict lexicographic (priority, region) selection.  ──── -/

/-- Modelled from the spec: the first region index (0-based) whose text
contains the phrase as a substring. -/
def firstRegionIdx (p : String) : List String → Option Nat
  | [] => none
  | t :: ts =>
    if strContains t p = true then some 0
    else (firstRegionIdx p ts).map (fun j => j + 1)

/-- Modelled from the spec: the lexicographically first pair of a 0-based
priority index and a 0-based region index such that the priority phrase
is a substring of the region text; priority order dominates region
order. -/
def lexFirstPair : List String → List String → Option (Nat × Nat)
  | [], _ => none
  | p :: ps, texts =>
    match firstRegionIdx p texts with
    | some j => some (0, j)
    | none => (lexFirstPair ps texts).map (fun ij => (ij.1 + 1, ij.2))

/-- There is a match of priority i against region j. -/
def matchesAt (prios texts : List String) (i j : Nat) : Prop :=
  ∃ p t, prios.get? i = some p ∧ texts.get? j = some t ∧ strContains t p = true

theorem firstRegionIdx_some (p : String) :
    ∀ (texts : List String) (j : Nat), firstRegionIdx p texts = some j →
      ∃ t, texts.get? j = some t ∧ strContains t p = true := by
  intro texts
  induction texts with
  | nil => intro j h; simp [firstRegionIdx] at h
  | cons t ts ih =>
    intro j h
    by_cases hc : strContains t p = true
    · simp [firstRegionIdx, hc] at h
      exact h ▸ ⟨t, rfl, hc⟩
    · simp [firstRegionIdx, hc] at h
      obtain ⟨j0, hj0, hj⟩ := h
      obtain ⟨t0, hget, hc0⟩ := ih j0 hj0
      exact ⟨t0, by simpa [← hj] using hget, hc0⟩

theorem firstRegionIdx_min (p : String) :
    ∀ (texts : List String) (j : Nat), firstRegionIdx p texts = some j →
      ∀ j' t', j' < j → texts.get? j' = some t' → strContains t' p = false := by
  intro texts
  induction texts with
  | nil => intro j h; simp [firstRegionIdx] at h
  | cons t ts ih =>
    intro j h j' t' hlt hget
    by_cases hc : strContains t p = true
    · have heq : firstRegionIdx p (t :: ts) = some 0 := by
        simp [firstRegionIdx, hc]
      rw [heq] at h
      have hj : (0 : Nat) = j := Option.some.inj h
      omega
    · have heq : firstRegionIdx p (t :: ts) =
          (firstRegionIdx p ts).map (fun j => j + 1) := by
        simp [firstRegionIdx, hc]
      rw [heq, Option.map_eq_some'] at h
      obtain ⟨j0, hj0, hj⟩ := h
      cases j' with
      | zero =>
        have htt : t = t' := by simpa using hget
        subst htt
        simpa using hc
      | succ j1 =>
        exact ih j0 hj0 j1 t' (by omega) (by simpa using hget)

theorem firstRegionIdx_none (p : String) :
    ∀ (texts : List String), firstRegionIdx p texts = none →
      ∀ j t, texts.get? j = some t → strContains t p = false := by
  intro texts
  induction texts with
  | nil => intro _ j t h; simp at h
  | cons t0 ts ih =>
    intro h j t hget
    by_cases hc : strContains t0 p = true
    · simp [firstRegionIdx, hc] at h
    · simp [firstRegionIdx, hc] at h
      cases j with
      | zero =>
        have : t0 = t := by simpa using hget
        subst this
        simpa using hc
      | succ j1 => exact ih h j1 t (by simpa using hget)

theorem lexFirstPair_matches :
    ∀ (prios texts : List String) (i j : Nat),
      lexFirstPair prios texts = some (i, j) → matchesAt prios texts i j := by
  intro prios
  induction prios with
  | nil => intro texts i j h; simp [lexFirstPair] at h
  | cons p ps ih =>
    intro texts i j h
    cases hfr : firstRegionIdx p texts with
    | some j0 =>
      have heq : lexFirstPair (p :: ps) texts = some (0, j0) := by
        simp [lexFirstPair, hfr]
      rw [heq] at h
      have hpair := Option.some.inj h
      have hi : (0 : Nat) = i := congrArg Prod.fst hpair
      have hj : j0 = j := congrArg Prod.snd hpair
      obtain ⟨t, hget, hc⟩ := firstRegionIdx_some p texts j0 hfr
      refine ⟨p, t, ?_, ?_, hc⟩
      · rw [← hi]; rfl
      · rw [← hj]; exact hget
    | none =>
      have heq : lexFirstPair (p :: ps) texts =
          (lexFirstPair ps texts).map (fun ij => (ij.1 + 1, ij.2)) := by
        simp [lexFirstPair, hfr]
      rw [heq, Option.map_eq_some'] at h
      obtain ⟨⟨i0, j0⟩, hij, hpair⟩ := h
      have hi : i0 + 1 = i := congrArg Prod.fst hpair
      have hj : j0 = j := congrArg Prod.snd hpair
      obtain ⟨p0, t0, hp, ht, hc⟩ := ih texts i0 j0 hij
      refine ⟨p0, t0, ?_, ?_, hc⟩
      · rw [← hi]; simpa using hp
      · rw [← hj]; exact ht

theorem lexFirstPair_min :
    ∀ (prios texts : List String) (i j : Nat),
      lexFirstPair prios texts = some (i, j) →
      ∀ i' j', matchesAt prios texts i' j' → i < i' ∨ (i = i' ∧ j ≤ j') := by
  intro prios
  induction prios with
  | nil => intro texts i j h; simp [lexFirstPair] at h
  | cons p ps ih =>
    intro texts i j h i' j' hm
    obtain ⟨p', t', hp', ht', hc'⟩ := hm
    cases hfr : firstRegionIdx p texts with
    | some j0 =>
      have heq : lexFirstPair (p :: ps) texts = some (0, j0) := by
        simp [lexFirstPair, hfr]
      rw [heq] at h
      have hpair := Option.some.inj h
      have hi : (0 : Nat) = i := congrArg Prod.fst hpair
      have hj : j0 = j := congrArg Prod.snd hpair
      cases i' with
      | zero =>
        right
        refine ⟨by omega, ?_⟩
        have hpp : p = p' := by simpa using hp'
        by_contra hle
        have hlt : j' < j0 := by omega
        have hfalse := firstRegionIdx_min p texts j0 hfr j' t' hlt ht'
        rw [hpp, hc'] at hfalse
        exact Bool.noConfusion hfalse
      | succ i1 => left; omega
    | none =>
      have heq : lexFirstPair (p :: ps) texts =
          (lexFirstPair ps texts).map (fun ij => (ij.1 + 1, ij.2)) := by
        simp [lexFirstPair, hfr]
      rw [heq, Option.map_eq_some'] at h
      obtain ⟨⟨i0, j0⟩, hij, hpair⟩ := h
      have hi : i0 + 1 = i := congrArg Prod.fst hpair
      have hj : j0 = j := congrArg Prod.snd hpair
      cases i' with
      | zero =>
        exfalso
        have hpp : p = p' := by simpa using hp'
        have hfalse := firstRegionIdx_none p texts hfr j' t' ht'
        rw [hpp, hc'] at hfalse
        exact Bool.noConfusion hfalse
      | succ i1 =>
        have hm1 : matchesAt ps texts i1 j' :=
          ⟨p', t', by simpa using hp', ht', hc'⟩
        rcases ih texts i0 j0 hij i1 j' hm1 with hlt | ⟨hieq, hle⟩
        · left; omega
        · right; exact ⟨by omega, by omega⟩

theorem find?_eq_firstRegionIdx (p : String) :
    ∀ (trs : List (Nat × String × Region)),
      trs.find? (fun t => strContains t.2.1 p) =
        (firstRegionIdx p (trs.map (fun t => t.2.1))).bind (fun j => trs.get? j) := by
  intro trs
  induction trs with
  | nil => rfl
  | cons a ts ih =>
    by_cases hc : strContains a.2.1 p = true
    · simp [List.find?_cons_of_pos _ (by simpa using hc), firstRegionIdx, hc]
    · rw [List.find?_cons_of_neg _ (by simpa using hc)]
      simp only [List.map_cons, firstRegionIdx, hc, if_neg]
      rw [ih]
      cases hfr : firstRegionIdx p (ts.map (fun t => t.2.1)) <;> simp [hfr]

theorem findChosen_eq_lexFirstPair :
    ∀ (prios : List String) (trs : List (Nat × String × Region)),
      findChosen prios trs =
        (lexFirstPair prios (trs.map (fun t => t.2.1))).bind
          (fun ij => (prios.get? ij.1).bind
            (fun q => (trs.get? ij.2).map (fun tr => (q, tr.1, tr.2.2)))) := by
  intro prios
  induction prios with
  | nil => intro trs; rfl
  | cons p ps ih =>
    intro trs
    have hfind := find?_eq_firstRegionIdx p trs
    cases hfr : firstRegionIdx p (trs.map (fun t => t.2.1)) with
    | some j =>
      rw [hfr] at hfind
      obtain ⟨t, hget, _⟩ := firstRegionIdx_some p _ j hfr
      have hjlen : j < trs.length := by
        by_contra hle
        have hnone : (List.map (fun t => t.2.1) trs).get? j = none :=
          List.get?_eq_none.mpr (by simpa using Nat.le_of_not_lt hle)
        rw [hnone] at hget
        exact Option.noConfusion hget
      cases htr0 : trs.get? j with
      | none =>
        have := List.get?_eq_none.mp htr0
        omega
      | some tr =>
        simp only [Option.some_bind] at hfind
        rw [htr0] at hfind
        have htr1 : trs[j]? = some tr := by
          rw [← List.get?_eq_getElem?]
          exact htr0
        simp [findChosen, hfind, lexFirstPair, hfr, htr0, htr1]
    | none =>
      rw [hfr] at hfind
      simp only [Option.none_bind] at hfind
      simp only [findChosen, hfind, lexFirstPair, hfr]
      rw [ih]
      cases hlp : lexFirstPair ps (trs.map (fun t => t.2.1)) with
      | none => simp
      | some ij => simp

/-- The tie-break example config: priority list ["a", "b"] over the
default regions. -/
def tieCfg : BotConfig := { defaultConfig with perk_priority := ["a", "b"] }

/-- The tie-break frame oracle with the literal texts of the claim: perk
region 1 reads the string "contains b", perk region 2 reads the string
"contains a", regions 3 and 4 read empty text. -/
def tiePrims : Prims Unit Unit :=
  { ocr_text := fun _ r _ =>
      (if r = tieCfg.perk1_region then "contains b"
       else if r = tieCfg.perk2_region then "contains a" else "", 0)
    region_has_white := fun _ _ => false
    crop := fun m _ => m
    cv := unitCv }

/-- The tie-break frame oracle with the texts the example intends: perk
region 1 reads "b", perk region 2 reads "a", regions 3 and 4 read empty
text. -/
def tiePrimsIntended : Prims Unit Unit :=
  { ocr_text := fun _ r _ =>
      (if r = tieCfg.perk1_region then "b"
       else if r = tieCfg.perk2_region then "a" else "", 0)
    region_has_white := fun _ _ => false
    crop := fun m _ => m
    cv := unitCv }

/-- C2 counterexample: with priorities ["a", "b"] and the region texts of
the claim read literally — region 1 text "contains b", region 2 text
"contains a" — the priority phrase "a" is already a substring of region
1's text (the word "contains" has an "a"), so the code selects priority
"a" in region 1 and taps region 1's centre (721, 674), not region 2's
centre (721, 924) as the claim says. -/
theorem perk_selection_example_cex :
    lexFirstPair tieCfg.perk_priority (perkTexts tiePrims unitEnv tieCfg) =
      some (0, 0) ∧
    (handle_perk_selection tiePrims unitEnv tieCfg).2 = [(721, 674)] ∧
    ([(721, 674)] : List Coord) ≠ [(721, 924)] := by decide

/-- C2 (amended): the perk handler taps exactly the centre (by integer
floor division) of the region selected by the lexicographically first
(priority index, region index) matching pair — priority order dominating
region order — or taps nothing when no pair matches; lexFirstPair is the
strict lexicographic minimum over all matching pairs; and on the
priorities ["a", "b"] with region texts ["b", "a", "", ""] (region 1
containing "b", region 2 containing "a") it selects priority "a" in
region 2 and taps that region's centre (721, 924). -/
theorem perk_selection_lex_spec {Img Mat : Type} (P : Prims Img Mat)
    (env : Env Img Mat) (cfg : BotConfig) :
    ((handle_perk_selection P env cfg).2 =
      match lexFirstPair cfg.perk_priority (perkTexts P env cfg) with
      | some ij =>
        (match (perkRegions cfg).get? ij.2 with
         | some r => [(r.1 + r.2.2.1 / 2, r.2.1 + r.2.2.2 / 2)]
         | none => [])
      | none => []) ∧
    (∀ i j, lexFirstPair cfg.perk_priority (perkTexts P env cfg) = some (i, j) →
      matchesAt cfg.perk_priority (perkTexts P env cfg) i j ∧
      ∀ i' j', matchesAt cfg.perk_priority (perkTexts P env cfg) i' j' →
        i < i' ∨ (i = i' ∧ j ≤ j')) ∧
    lexFirstPair tieCfg.perk_priority (perkTexts tiePrimsIntended unitEnv tieCfg) =
      some (0, 1) ∧
    (handle_perk_selection tiePrimsIntended unitEnv tieCfg).2 = [(721, 924)] := by
  refine ⟨?_, ?_, by decide, by decide⟩
  · have hcorr := findChosen_eq_lexFirstPair cfg.perk_priority (perkTextRegions P env cfg)
    rw [perkTextRegions_texts] at hcorr
    cases hlex : lexFirstPair cfg.perk_priority (perkTexts P env cfg) with
    | none =>
      rw [hlex, Option.none_bind] at hcorr
      simp [handle_perk_selection, hcorr, hlex]
    | some ij =>
      obtain ⟨i, j⟩ := ij
      rw [hlex, Option.some_bind] at hcorr
      obtain ⟨p, t, hp, ht, _⟩ := lexFirstPair_matches cfg.perk_priority _ i j hlex
      rw [hp, Option.some_bind] at hcorr
      have hj4 : j < 4 := by
        by_contra h4
        have hnone : (perkTexts P env cfg).get? j = none := by
          refine List.get?_eq_none.mpr ?_
          have hlen : (perkTexts P env cfg).length = 4 := by
            simp [perkTexts, perkRegions]
          omega
        rw [hnone] at ht
        exact Option.noConfusion ht
      interval_cases j
      · rw [show (perkTextRegions P env cfg).get? 0 =
          some (1, lowerStr (P.ocr_text env.img cfg.perk1_region none).1,
            cfg.perk1_region) from rfl] at hcorr
        simp [handle_perk_selection, hcorr, hlex, perkRegions]
      · rw [show (perkTextRegions P env cfg).get? 1 =
          some (2, lowerStr (P.ocr_text env.img cfg.perk2_region none).1,
            cfg.perk2_region) from rfl] at hcorr
        simp [handle_perk_selection, hcorr, hlex, perkRegions]
      · rw [show (perkTextRegions P env cfg).get? 2 =
          some (3, lowerStr (P.ocr_text env.img cfg.perk3_region none).1,
            cfg.perk3_region) from rfl] at hcorr
        simp [handle_perk_selection, hcorr, hlex, perkRegions]
      · rw [show (perkTextRegions P env cfg).get? 3 =
          some (4, lowerStr (P.ocr_text env.img cfg.perk4_region none).1,
            cfg.perk4_region) from rfl] at hcorr
        simp [handle_perk_selection, hcorr, hlex, perkRegions]
  · intro i j hlex
    exact ⟨lexFirstPair_matches _ _ i j hlex, lexFirstPair_min _ _ i j hlex⟩

/-- Witness for the amended C2, discharging the minimality implication at
the intended tie-break instance. -/
theorem perk_selection_lex_spec_witness :
    lexFirstPair tieCfg.perk_priority (perkTexts tiePrimsIntended unitEnv tieCfg) =
      some (0, 1) ∧
    matchesAt tieCfg.perk_priority (perkTexts tiePrimsIntended unitEnv tieCfg) 0 1 ∧
    (∀ i' j',
      matchesAt tieCfg.perk_priority (perkTexts tiePrimsIntended unitEnv tieCfg) i' j' →
        0 < i' ∨ (0 = i' ∧ 1 ≤ j')) := by
  have h := perk_selection_lex_spec tiePrimsIntended unitEnv tieCfg
  have hmin := h.2.1 0 1 h.2.2.1
  exact ⟨h.2.2.1, hmin.1, hmin.2⟩

/- ──────────────────────────────────────────────────────────────
   C5: defence-tab task.  ───────────────────────────────────── -/

/-- Replace the six task feature toggles of a config, leaving every other
field unchanged. -/
def setToggles (cfg : BotConfig) (r h a g f p : Bool) : BotConfig :=
  { cfg with retry_enabled := r, health_enabled := h, abs_def_enabled := a,
             gems_enabled := g, float_enabled := f, perk_enabled := p }

/-- C5: the defence-tab task is gated only by its own interval — the
feature toggles never change its taps or its next-eligible update; when
the detector reports the tab active, no tap is issued and no cooldown is
consumed regardless of cooldown state; when it reports inactive and the
cooldown allows, exactly one tap is issued at the fixed defence-tab
coordinate; when the cooldown refuses, no tap. -/
theorem defence_tab_spec {Img Mat : Type} (P : Prims Img Mat) (env : Env Img Mat)
    (now : ℚ) (s : LoopSt) :
    (¬ getD s.next "def" 0 ≤ now → tickDefence P env now s = s) ∧
    (∀ r h a g f p,
      (tickDefence P env now { s with cfg := setToggles s.cfg r h a g f p }).taps =
        (tickDefence P env now s).taps ∧
      (tickDefence P env now { s with cfg := setToggles s.cfg r h a g f p }).next =
        (tickDefence P env now s).next) ∧
    (getD s.next "def" 0 ≤ now → defenceActive P env s.cfg = true →
      (tickDefence P env now s).taps = s.taps ∧
      (tickDefence P env now s).cfg._cooldown = s.cfg._cooldown) ∧
    (getD s.next "def" 0 ≤ now → defenceActive P env s.cfg = false →
      getD s.cfg._cooldown "def" 0 ≤ now →
      (tickDefence P env now s).taps = s.taps ++ [s.cfg.def_tab_tap_coord]) ∧
    (getD s.next "def" 0 ≤ now → defenceActive P env s.cfg = false →
      ¬ getD s.cfg._cooldown "def" 0 ≤ now →
      (tickDefence P env now s).taps = s.taps) := by
  refine ⟨?_, ?_, ?_, ?_, ?_⟩
  · intro hdue
    simp [tickDefence, hdue]
  · intro r h a g f p
    have hact : defenceActive P env (setToggles s.cfg r h a g f p) =
        defenceActive P env s.cfg := rfl
    have hcoord : (setToggles s.cfg r h a g f p).def_tab_tap_coord =
        s.cfg.def_tab_tap_coord := rfl
    have hint : (setToggles s.cfg r h a g f p).defence_interval =
        s.cfg.defence_interval := rfl
    by_cases hdue : getD s.next "def" 0 ≤ now
    · by_cases hd : defenceActive P env s.cfg = false
      · by_cases hc : getD s.cfg._cooldown "def" 0 ≤ now
        · have hc' : getD (setToggles s.cfg r h a g f p)._cooldown "def" 0 ≤ now := hc
          simp [tickDefence, hdue, hact, hd, can_act_eq_true _ _ _ hc,
            can_act_eq_true _ _ _ hc', hcoord, hint]
        · have hc' : ¬ getD (setToggles s.cfg r h a g f p)._cooldown "def" 0 ≤ now := hc
          simp [tickDefence, hdue, hact, hd, can_act_eq_false _ _ _ hc,
            can_act_eq_false _ _ _ hc', hcoord, hint]
      · simp [tickDefence, hdue, hact, hd, hint]
    · simp [tickDefence, hdue]
  · intro hdue hact
    have hd : ¬ defenceActive P env s.cfg = false := by simp [hact]
    simp [tickDefence, hdue, hd]
  · intro hdue hact hc
    simp [tickDefence, hdue, hact, can_act_eq_true _ _ _ hc]
  · intro hdue hact hc
    simp [tickDefence, hdue, hact, can_act_eq_false _ _ _ hc]

/-- A frame oracle whose OCR reads "defense upgrade" everywhere, making
the defence-tab detector report active through the text fallback. -/
def defActivePrims : Prims Unit Unit :=
  { ocr_text := fun _ _ _ => ("defense upgrade", 0)
    region_has_white := fun _ _ => false
    crop := fun m _ => m
    cv := unitCv }

/-- Witness for C5: at time 0 with an empty ledger, the inactive detector
yields exactly one tap at the fixed coordinate, and the active detector
yields no tap. -/
theorem defence_tab_spec_witness :
    (getD ([] : List (String × ℚ)) "def" 0 ≤ (0 : ℚ)) ∧
    defenceActive unitPrims unitEnv defaultConfig = false ∧
    (getD defaultConfig._cooldown "def" 0 ≤ (0 : ℚ)) ∧
    (tickDefence unitPrims unitEnv 0 { cfg := defaultConfig, next := [], taps := [] }).taps =
      [] ++ [defaultConfig.def_tab_tap_coord] ∧
    defenceActive defActivePrims unitEnv defaultConfig = true ∧
    (tickDefence defActivePrims unitEnv 0 { cfg := defaultConfig, next := [], taps := [] }).taps =
      ([] : List Coord) := by
  have h1 := defence_tab_spec unitPrims unitEnv 0
    { cfg := defaultConfig, next := [], taps := [] }
  have h2 := defence_tab_spec defActivePrims unitEnv 0
    { cfg := defaultConfig, next := [], taps := [] }
  have hdue : getD ([] : List (String × ℚ)) "def" 0 ≤ (0 : ℚ) := by decide
  have hinact : defenceActive unitPrims unitEnv defaultConfig = false := by decide
  have hact : defenceActive defActivePrims unitEnv defaultConfig = true := by decide
  have hc : getD defaultConfig._cooldown "def" 0 ≤ (0 : ℚ) := by decide
  exact ⟨hdue, hinact, hc, h1.2.2.2.1 hdue hinact hc, hact, (h2.2.2.1 hdue hact).1⟩

/- ──────────────────────────────────────────────────────────────
   C7: health and absolute-defence share one cooldown slot.  ── -/

theorem tickUpgrade_eq {Img Mat : Type} (P : Prims Img Mat) (env : Env Img Mat)
    (now : ℚ) (s : LoopSt)
    (hdue : getD s.next "upg" 0 ≤ now) (helig : getD s.cfg._cooldown "upg" 0 ≤ now) :
    tickUpgrade P env now s =
      { cfg := { s.cfg with
          _cooldown := setAssoc s.cfg._cooldown "upg" (now + resolveInterval s.cfg "upg") },
        next := setAssoc s.next "upg" (now + s.cfg.upgrade_interval),
        taps := s.taps ++
          (if s.cfg.health_enabled = true ∧ s.cfg.wave_number < s.cfg.health_stop ∧
              P.region_has_white env.img s.cfg.health_region = true then
            [(s.cfg.health_region.1 + s.cfg.health_region.2.2.1 / 2,
              s.cfg.health_region.2.1 + s.cfg.health_region.2.2.2 / 2)]
          else []) ++
          (if s.cfg.abs_def_enabled = true ∧ s.cfg.wave_number < s.cfg.abs_def_stop ∧
              P.region_has_white env.img s.cfg.abs_def_region = true then
            [(s.cfg.abs_def_region.1 + s.cfg.abs_def_region.2.2.1 / 2,
              s.cfg.abs_def_region.2.1 + s.cfg.abs_def_region.2.2.2 / 2)]
          else []) } := by
  obtain ⟨cfg0, next0, taps0⟩ := s
  rcases hHR : cfg0.health_region with ⟨hx, hy, hw, hh⟩
  rcases hAR : cfg0.abs_def_region with ⟨ax, ay, aw, ah⟩
  unfold tickUpgrade
  rw [if_pos hdue, can_act_eq_true _ _ _ helig]
  simp only [hHR, hAR]
  by_cases h1 : cfg0.health_enabled = true ∧ cfg0.wave_number < cfg0.health_stop ∧
      P.region_has_white env.img (hx, hy, hw, hh) = true <;>
    by_cases h2 : cfg0.abs_def_enabled = true ∧ cfg0.wave_number < cfg0.abs_def_stop ∧
        P.region_has_white env.img (ax, ay, aw, ah) = true <;>
      simp [h1, h2]

/-- C7: the two upgrade tasks run under one shared interval and cooldown
slot ("upg"): when either gate refuses, neither task runs at all; when
both allow, each task independently appends its own region-centre tap
exactly when its own toggle, its own wave-stop bound, and the white-pixel
check hold (so both may tap in one tick); with wave_number at or past
health_stop the health tap never occurs; only the shared "upg" ledger
entry is written. -/
theorem upgrade_shared_slot_spec {Img Mat : Type} (P : Prims Img Mat)
    (env : Env Img Mat) (now : ℚ) (s : LoopSt) :
    (¬ getD s.next "upg" 0 ≤ now → tickUpgrade P env now s = s) ∧
    (getD s.next "upg" 0 ≤ now → ¬ getD s.cfg._cooldown "upg" 0 ≤ now →
      tickUpgrade P env now s = s) ∧
    (getD s.next "upg" 0 ≤ now → getD s.cfg._cooldown "upg" 0 ≤ now →
      (tickUpgrade P env now s).taps = s.taps ++
        (if s.cfg.health_enabled = true ∧ s.cfg.wave_number < s.cfg.health_stop ∧
            P.region_has_white env.img s.cfg.health_region = true then
          [(s.cfg.health_region.1 + s.cfg.health_region.2.2.1 / 2,
            s.cfg.health_region.2.1 + s.cfg.health_region.2.2.2 / 2)]
        else []) ++
        (if s.cfg.abs_def_enabled = true ∧ s.cfg.wave_number < s.cfg.abs_def_stop ∧
            P.region_has_white env.img s.cfg.abs_def_region = true then
          [(s.cfg.abs_def_region.1 + s.cfg.abs_def_region.2.2.1 / 2,
            s.cfg.abs_def_region.2.1 + s.cfg.abs_def_region.2.2.2 / 2)]
        else []) ∧
      (tickUpgrade P env now s).next =
        setAssoc s.next "upg" (now + s.cfg.upgrade_interval) ∧
      (∀ k', k' ≠ "upg" →
        getA (tickUpgrade P env now s).cfg._cooldown k' = getA s.cfg._cooldown k')) ∧
    (getD s.next "upg" 0 ≤ now → getD s.cfg._cooldown "upg" 0 ≤ now →
      s.cfg.health_stop ≤ s.cfg.wave_number →
      (tickUpgrade P env now s).taps = s.taps ++
        (if s.cfg.abs_def_enabled = true ∧ s.cfg.wave_number < s.cfg.abs_def_stop ∧
            P.region_has_white env.img s.cfg.abs_def_region = true then
          [(s.cfg.abs_def_region.1 + s.cfg.abs_def_region.2.2.1 / 2,
            s.cfg.abs_def_region.2.1 + s.cfg.abs_def_region.2.2.2 / 2)]
        else [])) := by
  refine ⟨?_, ?_, ?_, ?_⟩
  · intro hdue
    simp [tickUpgrade, hdue]
  · intro hdue helig
    unfold tickUpgrade
    rw [if_pos hdue, can_act_eq_false _ _ _ helig]
  · intro hdue helig
    rw [tickUpgrade_eq P env now s hdue helig]
    refine ⟨rfl, rfl, ?_⟩
    intro k' hk'
    exact getA_setAssoc_ne _ _ _ _ hk'
  · intro hdue helig hstop
    rw [tickUpgrade_eq P env now s hdue helig]
    have hno : ¬ (s.cfg.health_enabled = true ∧ s.cfg.wave_number < s.cfg.health_stop ∧
        P.region_has_white env.img s.cfg.health_region = true) := by
      rintro ⟨_, hlt, _⟩
      omega
    simp [hno]

/-- A frame oracle whose white-pixel detector reports white everywhere. -/
def whitePrims : Prims Unit Unit :=
  { ocr_text := fun _ _ _ => ("", 0)
    region_has_white := fun _ _ => true
    crop := fun m _ => m
    cv := unitCv }

/-- Witness for C7: with white pixels present in both upgrade regions and
the shared slot eligible, both taps fire in the same tick, at the centres
of the health and absolute-defence regions. -/
theorem upgrade_shared_slot_spec_witness :
    (getD ([] : List (String × ℚ)) "upg" 0 ≤ (0 : ℚ)) ∧
    (getD defaultConfig._cooldown "upg" 0 ≤ (0 : ℚ)) ∧
    (tickUpgrade whitePrims unitEnv 0
      { cfg := defaultConfig, next := [], taps := [] }).taps = [(535, 1807), (1226, 2084)] := by
  have h := upgrade_shared_slot_spec whitePrims unitEnv 0
    { cfg := defaultConfig, next := [], taps := [] }
  have hdue : getD ([] : List (String × ℚ)) "upg" 0 ≤ (0 : ℚ) := by decide
  have helig : getD defaultConfig._cooldown "upg" 0 ≤ (0 : ℚ) := by decide
  have htaps := (h.2.2.1 hdue helig).1
  refine ⟨hdue, helig, ?_⟩
  rw [htaps]
  decide

/- ──────────────────────────────────────────────────────────────
   C8: wave-number extraction.  ─────────────────────────────── -/

theorem bdrAux_digits :
    ∀ (l : List Char) (ok : Bool) (run : List Char),
      run.all Char.isDigit = true →
      ∀ r, bdrAux l ok run = some r → r ≠ [] ∧ r.all Char.isDigit = true := by
  intro l
  induction l with
  | nil =>
    intro ok run hrun r h
    by_cases he : run.isEmpty = true
    · simp [bdrAux, he] at h
    · simp [bdrAux, he] at h
      subst h
      constructor
      · intro hnil
        rw [List.reverse_eq_nil_iff] at hnil
        subst hnil
        simp at he
      · rw [List.all_eq_true] at hrun ⊢
        intro c hc
        exact hrun c (List.mem_reverse.mp hc)
  | cons c t ih =>
    intro ok run hrun r h
    by_cases hd : c.isDigit = true
    · by_cases he : run.isEmpty = true
      · have hrunnil : run = [] := List.isEmpty_iff.mp he
        subst hrunnil
        cases ok with
        | true =>
          simp [bdrAux, hd] at h
          exact ih true [c] (by simp [hd]) r h
        | false =>
          simp [bdrAux, hd] at h
          exact ih false [] (by simp) r h
      · have hne : ¬ run = [] := fun hnil => he (List.isEmpty_iff.mpr hnil)
        simp [bdrAux, hd, List.isEmpty_iff, hne] at h
        exact ih ok (c :: run) (by simp [hd, hrun]) r h
    · by_cases he : run.isEmpty = true
      · have hrunnil : run = [] := List.isEmpty_iff.mp he
        subst hrunnil
        simp [bdrAux, hd] at h
        exact ih (!(wordChar c)) [] (by simp) r h
      · have hne : ¬ run = [] := fun hnil => he (List.isEmpty_iff.mpr hnil)
        by_cases hw : wordChar c = true
        · simp [bdrAux, hd, hw, List.isEmpty_iff, hne] at h
          exact ih false [] (by simp) r h
        · simp [bdrAux, hd, hw, List.isEmpty_iff, hne] at h
          have hr : run.reverse = r := h
          subst hr
          constructor
          · intro hnil
            rw [List.reverse_eq_nil_iff] at hnil
            exact hne hnil
          · rw [List.all_eq_true] at hrun ⊢
            intro a ha
            exact hrun a (List.mem_reverse.mp ha)

/-- C8 (amended): the wave task is gated only by its own interval and by
no toggle; it OCRs the wave region with the digit whitelist and applies
re.search for a word-bounded digit run — the first maximal digit run not
adjacent to any letter, digit, or underscore — overwriting wave_number
with that run's integer value on a match (text "wave 42 " yields 42) and
leaving the previous wave number untouched otherwise, never resetting it
to zero; it issues no tap and consumes no cooldown. -/
theorem wave_extraction_spec {Img Mat : Type} (P : Prims Img Mat)
    (env : Env Img Mat) (now : ℚ) (s : LoopSt) :
    (¬ getD s.next "wave" 0 ≤ now → tickWave P env now s = s) ∧
    (∀ r h a g f p,
      (tickWave P env now { s with cfg := setToggles s.cfg r h a g f p }).next =
        (tickWave P env now s).next ∧
      (tickWave P env now { s with cfg := setToggles s.cfg r h a g f p }).cfg.wave_number =
        (tickWave P env now s).cfg.wave_number) ∧
    (getD s.next "wave" 0 ≤ now →
      (tickWave P env now s).next = setAssoc s.next "wave" (now + s.cfg.wave_interval) ∧
      (reSearchDigits (P.ocr_text env.img s.cfg.wave_region (some "0123456789")).1 = none →
        (tickWave P env now s).cfg = s.cfg) ∧
      (∀ run,
        reSearchDigits (P.ocr_text env.img s.cfg.wave_region (some "0123456789")).1 =
          some run →
        (tickWave P env now s).cfg = { s.cfg with wave_number := natOfDigits run } ∧
        run ≠ [] ∧ run.all Char.isDigit = true) ∧
      ((P.ocr_text env.img s.cfg.wave_region (some "0123456789")).1 = "wave 42 " →
        (tickWave P env now s).cfg.wave_number = 42)) ∧
    (tickWave P env now s).taps = s.taps ∧
    (tickWave P env now s).cfg._cooldown = s.cfg._cooldown := by
  refine ⟨?_, ?_, ?_, ?_, ?_⟩
  · intro hdue
    simp [tickWave, hdue]
  · intro r h a g f p
    have hwr : (setToggles s.cfg r h a g f p).wave_region = s.cfg.wave_region := rfl
    have hwi : (setToggles s.cfg r h a g f p).wave_interval = s.cfg.wave_interval := rfl
    have hwn : (setToggles s.cfg r h a g f p).wave_number = s.cfg.wave_number := rfl
    by_cases hdue : getD s.next "wave" 0 ≤ now
    · cases hres : reSearchDigits (P.ocr_text env.img s.cfg.wave_region
          (some "0123456789")).1 with
      | none => simp [tickWave, hdue, hres, hwr, hwi, hwn]
      | some run => simp [tickWave, hdue, hres, hwr, hwi, hwn]
    · simp [tickWave, hdue, hwn]
  · intro hdue
    refine ⟨?_, ?_, ?_, ?_⟩
    · cases hres : reSearchDigits (P.ocr_text env.img s.cfg.wave_region
          (some "0123456789")).1 with
      | none => simp [tickWave, hdue, hres]
      | some run => simp [tickWave, hdue, hres]
    · intro hres
      simp [tickWave, hdue, hres]
    · intro run hres
      refine ⟨by simp [tickWave, hdue, hres], ?_⟩
      have : run.all Char.isDigit = true → True := fun _ => trivial
      exact bdrAux_digits _ true [] (by simp) run hres
    · intro htxt
      have hsr : reSearchDigits (P.ocr_text env.img s.cfg.wave_region
          (some "0123456789")).1 = some ['4', '2'] := by
        rw [htxt]; rfl
      simp [tickWave, hdue, hsr, natOfDigits]
  · by_cases hdue : getD s.next "wave" 0 ≤ now
    · cases hres : reSearchDigits (P.ocr_text env.img s.cfg.wave_region
          (some "0123456789")).1 with
      | none => simp [tickWave, hdue, hres]
      | some run => simp [tickWave, hdue, hres]
    · simp [tickWave, hdue]
  · by_cases hdue : getD s.next "wave" 0 ≤ now
    · cases hres : reSearchDigits (P.ocr_text env.img s.cfg.wave_region
          (some "0123456789")).1 with
      | none => simp [tickWave, hdue, hres]
      | some run => simp [tickWave, hdue, hres]
    · simp [tickWave, hdue]

/-- The frame oracle whose wave OCR reads the text "1a 2". -/
def waveTextPrims : Prims Unit Unit :=
  { ocr_text := fun _ _ _ => ("1a 2", 0)
    region_has_white := fun _ _ => false
    crop := fun m _ => m
    cv := unitCv }

/-- C8 counterexample: on OCR text "1a 2" the first run of digits is "1",
so the claim predicts wave number 1; the code's regex demands word
boundaries, skips the "1" glued to the letter "a", and sets the wave
number to 2 instead. -/
theorem wave_first_digit_run_cex :
    (firstDigitRun ("1a 2").data).map natOfDigits = some 1 ∧
    (tickWave waveTextPrims unitEnv 0
      { cfg := defaultConfig, next := [], taps := [] }).cfg.wave_number = 2 ∧
    (2 : Nat) ≠ 1 := by decide

/-- The frame oracle whose wave OCR reads the text "wave 42 ". -/
def wave42Prims : Prims Unit Unit :=
  { ocr_text := fun _ _ _ => ("wave 42 ", 0)
    region_has_white := fun _ _ => false
    crop := fun m _ => m
    cv := unitCv }

/-- Witness for the amended C8 at OCR text "wave 42 ". -/
theorem wave_extraction_spec_witness :
    (getD ([] : List (String × ℚ)) "wave" 0 ≤ (0 : ℚ)) ∧
    (wave42Prims.ocr_text () defaultConfig.wave_region (some "0123456789")).1 =
      "wave 42 " ∧
    (tickWave wave42Prims unitEnv 0
      { cfg := defaultConfig, next := [], taps := [] }).cfg.wave_number = 42 ∧
    (['4', '2'] : List Char) ≠ [] ∧ (['4', '2'] : List Char).all Char.isDigit = true := by
  have h := wave_extraction_spec wave42Prims unitEnv 0
    { cfg := defaultConfig, next := [], taps := [] }
  have hdue : getD ([] : List (String × ℚ)) "wave" 0 ≤ (0 : ℚ) := by decide
  have hrun := (h.2.2.1 hdue).2.2.1 ['4', '2'] rfl
  exact ⟨hdue, rfl, (h.2.2.1 hdue).2.2.2 rfl, hrun.2.1, hrun.2.2⟩

/- ──────────────────────────────────────────────────────────────
   C6: template auto-resize and the fixed 0.70 threshold.  ──── -/

/-- C6: when the crop and template dimensions differ, cv_match scores the
unmodified crop against the template resized (area interpolation) to the
crop's dimensions, so the score equals the score computed against a
pre-resized template of identical content; with equal dimensions the
template is used as is; and the defence-tab detector condition under the
template strategy holds exactly when this maximum normalized
cross-correlation score is at least 7/10, a fixed constant taken from no
configuration field.  The hypothesis states that the resize collaborator
returns a matrix of the requested dimensions. -/
theorem cv_match_spec {Img Mat : Type} (P : Prims Img Mat) (env : Env Img Mat)
    (C : CvPrims Mat) (sub tpl : Mat)
    (hdim : ∀ (m : Mat) (wh : Nat × Nat), C.shape (C.resize m wh) = (wh.2, wh.1)) :
    (C.shape sub ≠ C.shape tpl →
      cv_match C sub tpl =
        C.matchMax sub (C.resize tpl ((C.shape sub).2, (C.shape sub).1)) ∧
      cv_match C sub (C.resize tpl ((C.shape sub).2, (C.shape sub).1)) =
        cv_match C sub tpl) ∧
    (C.shape sub = C.shape tpl → cv_match C sub tpl = C.matchMax sub tpl) ∧
    (∀ (tpl0 : Mat) (cfg : BotConfig),
      env.templates "defence_region" = some tpl0 →
      (defenceActive P env cfg = true ↔
        7 / 10 ≤ cv_match P.cv (P.crop env.gray cfg.defence_region) tpl0)) := by
  have hsubeta : ((C.shape sub).1, (C.shape sub).2) = C.shape sub := rfl
  have htpleta : ((C.shape tpl).1, (C.shape tpl).2) = C.shape tpl := rfl
  refine ⟨?_, ?_, ?_⟩
  · intro hne
    have hcond : ((C.shape sub).1, (C.shape sub).2) ≠ ((C.shape tpl).1, (C.shape tpl).2) := by
      rw [hsubeta, htpleta]; exact hne
    have h1 : cv_match C sub tpl =
        C.matchMax sub (C.resize tpl ((C.shape sub).2, (C.shape sub).1)) := by
      unfold cv_match
      rw [if_pos hcond]
    refine ⟨h1, ?_⟩
    have hshape : C.shape (C.resize tpl ((C.shape sub).2, (C.shape sub).1)) =
        C.shape sub := by
      rw [hdim tpl ((C.shape sub).2, (C.shape sub).1)]
    have hcond2 : ¬ ((C.shape sub).1, (C.shape sub).2) ≠
        ((C.shape (C.resize tpl ((C.shape sub).2, (C.shape sub).1))).1,
         (C.shape (C.resize tpl ((C.shape sub).2, (C.shape sub).1))).2) := by
      rw [hshape]
      intro hcontra
      exact hcontra rfl
    have h2 : cv_match C sub (C.resize tpl ((C.shape sub).2, (C.shape sub).1)) =
        C.matchMax sub (C.resize tpl ((C.shape sub).2, (C.shape sub).1)) := by
      unfold cv_match
      rw [if_neg hcond2]
    rw [h1, h2]
  · intro heq
    have hcond : ¬ ((C.shape sub).1, (C.shape sub).2) ≠
        ((C.shape tpl).1, (C.shape tpl).2) := by
      rw [hsubeta, htpleta, heq]
      intro hcontra
      exact hcontra rfl
    unfold cv_match
    rw [if_neg hcond]
  · intro tpl0 cfg htpl
    unfold defenceActive
    rw [htpl]
    simp

/-- Dimension-only matrices: a matrix is its (rows, cols) pair, resize
realizes the requested target dimensions, and every match scores 1. -/
def dimCv : CvPrims (Nat × Nat) :=
  { shape := fun m => m
    resize := fun _ wh => (wh.2, wh.1)
    matchMax := fun _ _ => 1 }

/-- A frame oracle over dimension-only matrices. -/
def dimPrims : Prims Unit (Nat × Nat) :=
  { ocr_text := fun _ _ _ => ("", 0)
    region_has_white := fun _ _ => false
    crop := fun m _ => m
    cv := dimCv }

/-- An environment whose grayscale frame is a 20-row, 50-column
dimension-only matrix and whose defence template has those same
dimensions. -/
def dimEnv : Env Unit (Nat × Nat) :=
  { img := ()
    gray := (20, 50)
    templates := fun k => if k = "defence_region" then some ((20, 50) : Nat × Nat) else none }

/-- Witness for C6 on the 50-by-20 crop against the 100-by-40 template of
the spec's example, plus the threshold link at a concrete detector
instance. -/
theorem cv_match_spec_witness :
    dimCv.shape ((20, 50) : Nat × Nat) ≠ dimCv.shape ((40, 100) : Nat × Nat) ∧
    cv_match dimCv (20, 50) (40, 100) =
      dimCv.matchMax (20, 50) (dimCv.resize (40, 100) (50, 20)) ∧
    cv_match dimCv (20, 50) (dimCv.resize (40, 100) (50, 20)) =
      cv_match dimCv (20, 50) (40, 100) ∧
    dimEnv.templates "defence_region" = some ((20, 50) : Nat × Nat) ∧
    defenceActive dimPrims dimEnv defaultConfig = true := by
  have h := cv_match_spec dimPrims dimEnv dimCv (20, 50) (40, 100) (fun m wh => rfl)
  have hne : dimCv.shape ((20, 50) : Nat × Nat) ≠ dimCv.shape ((40, 100) : Nat × Nat) := by
    decide
  have hiff := h.2.2 (20, 50) defaultConfig rfl
  refine ⟨hne, (h.1 hne).1, (h.1 hne).2, rfl, ?_⟩
  refine hiff.mpr ?_
  have hval : cv_match dimCv ((20, 50) : Nat × Nat) ((20, 50) : Nat × Nat) = 1 := rfl
  rw [show dimPrims.crop dimEnv.gray defaultConfig.defence_region =
    ((20, 50) : Nat × Nat) from rfl]
  rw [show cv_match dimPrims.cv ((20, 50) : Nat × Nat) ((20, 50) : Nat × Nat) =
    (1 : ℚ) from rfl]
  norm_num

end TowerBotNative
